import Mathlib

/-!
Verification of the mw-vue-renderer module loader (`src/server.ts`) and the
message formatter (`src/mwMessage.d.ts` implementation).

The embedding is a shallow one: pure functions of the source become Lean
functions on `String`/`List Char`; the stateful loader becomes explicit
state passing over a `RequestState`; JavaScript exceptions become an `Err`
sum; the unbounded recursion of the loader (dependency or file cycles are
not detected by the source) is made total with a fuel parameter, where
running out of fuel is reported as the distinguished error `Err.outOfFuel`.
Reference identity of export objects is modelled by tagging each freshly
created object with a unique id drawn from a per-request counter.  A ghost
`trace` field records each actual execution of a file's source text and
each message-catalog merge, so that "executes at most once" and ordering
claims can be stated.
-/

namespace MwVue

/-- Association-list lookup; models reading an own property of a plain
JavaScript `Record`, and `Map.prototype.get`. -/
def lookupA {α : Type} : List (String × α) → String → Option α
  | [], _ => none
  | (k', v') :: rest, k => if k' = k then some v' else lookupA rest k

/-- Insertion-ordered update; models `Map.prototype.set` and property
assignment on a plain `Record`: an existing key keeps its position and gets
the new value, a new key is appended at the end. -/
def mapSet {α : Type} : List (String × α) → String → α → List (String × α)
  | [], k, v => [(k, v)]
  | (k', v') :: rest, k, v =>
    if k' = k then (k', v) :: rest else (k', v') :: mapSet rest k v

theorem lookupA_mapSet_self {α : Type} (l : List (String × α)) (k : String) (v : α) :
    lookupA (mapSet l k v) k = some v := by
  induction l with
  | nil => simp [mapSet, lookupA]
  | cons h t ih =>
    by_cases hk : h.1 = k
    · simp [mapSet, lookupA, hk]
    · simp [mapSet, lookupA, hk, ih]

theorem lookupA_mapSet_ne {α : Type} (l : List (String × α)) {k k' : String} (v : α)
    (h : k' ≠ k) : lookupA (mapSet l k v) k' = lookupA l k' := by
  induction l with
  | nil => simp [mapSet, lookupA, Ne.symm h]
  | cons hd t ih =>
    by_cases hk : hd.1 = k
    · subst hk
      simp [mapSet, lookupA, Ne.symm h]
    · simp only [mapSet, hk, if_false]
      by_cases hk' : hd.1 = k'
      · simp [lookupA, hk']
      · simp [lookupA, hk', ih]

theorem lookupA_mapSet_isSome {α : Type} (l : List (String × α)) {k : String}
    (k' : String) (v : α) (h : (lookupA l k).isSome = true) :
    (lookupA (mapSet l k' v) k).isSome = true := by
  by_cases hk : k = k'
  · subst hk; rw [lookupA_mapSet_self]; rfl
  · rw [lookupA_mapSet_ne l v (fun hh => hk hh)]; exact h

/-! ## Path resolution (`resolveRelativePath`, src/server.ts lines 91-118)

The source matches `relativePath` against the JavaScript regular expression
`/^((?:\.\.?\/)+)(.*)$/`.  Group 1 is the maximal leading run of `./` or
`../` segments; group 2 is the rest of the string.  Two ECMAScript facts
are part of the embedding: `.` does not match a line terminator
(`\n`, `\r`, U+2028, U+2029), and `$` (without the `m` flag) is an
end-of-input assertion, so the regular expression fails to match — and the
function returns `null` — whenever the remainder after the leading run
contains a line terminator, even if the string does begin with `./`/`../`
segments. -/

def isLineTerminator (c : Char) : Bool :=
  c = '\n' || c = '\r' || c.toNat = 0x2028 || c.toNat = 0x2029

/-- Strip the maximal leading run of `./` or `../` segments, returning the
list of segment tokens (`"."` or `".."`, in order) and the remainder.  This
is the tokenisation performed by group 1 of the source's regular expression
together with the `split('/')`/`pop()` post-processing of lines 103-106. -/
def stripRelRun : List Char → List String × List Char
  | '.' :: '.' :: '/' :: rest =>
    let p := stripRelRun rest
    (".." :: p.1, p.2)
  | '.' :: '/' :: rest =>
    let p := stripRelRun rest
    ("." :: p.1, p.2)
  | cs => ([], cs)

/-- Does the character list begin with a `./` or `../` segment? -/
def startsRelChars : List Char → Bool
  | '.' :: '.' :: '/' :: _ => true
  | '.' :: '/' :: _ => true
  | _ => false

/-- Does the string begin with a `./` or `../` segment?  (Negation of the
"not relative" condition of the source's regular expression.) -/
def startsRel (s : String) : Bool :=
  startsRelChars s.data

/-- JavaScript `basePath.split('/')` for the single-character separator. -/
def splitSlash : List Char → List (List Char)
  | [] => [[]]
  | '/' :: rest => [] :: splitSlash rest
  | c :: rest =>
    match splitSlash rest with
    | h :: t => (c :: h) :: t
    | [] => [[c]]

/-- Intercalate `'/'`; models `baseDirParts.join('/')`. -/
def joinSlash : List (List Char) → List Char
  | [] => []
  | [p] => p
  | p :: rest => p ++ '/' :: joinSlash rest

/-- The loop of src/server.ts lines 109-114: for every `..` token pop one
directory level (`Array.prototype.pop` on an empty array is a no-op, which
`List.dropLast` mirrors). -/
def popDirs : List (List Char) → List String → List (List Char)
  | dirs, [] => dirs
  | dirs, p :: ps => popDirs (if p = ".." then dirs.dropLast else dirs) ps

/-- Embedding of `resolveRelativePath` (src/server.ts lines 91-118). -/
def resolveRelativePath (relativePath basePath : String) : Option String :=
  let pr := stripRelRun relativePath.data
  if pr.1.isEmpty || pr.2.any isLineTerminator then
    none
  else
    let baseDirParts := (splitSlash basePath.data).dropLast
    let remaining := popDirs baseDirParts pr.1
    some (String.mk
      ((if remaining.isEmpty then [] else joinSlash remaining ++ ['/']) ++ pr.2))

/-! ## Message formatting (`format`, mwMessage implementation lines 47-77) -/

/-- Numeric value of a run of decimal digits (`parseInt(match, 10)` on the
digits captured by `\d+`). -/
def digitsToNat (ds : List Char) : Nat :=
  ds.foldl (fun a c => 10 * a + (c.toNat - 48)) 0

/-- Replacement text produced for one `$N` token: `parameters[N-1]` when
that argument exists, otherwise the token itself (`'$' + match`). -/
def emitToken (args : List String) (ds : List Char) : List Char :=
  let idx := digitsToNat ds
  if idx = 0 then '$' :: ds
  else
    match args[idx - 1]? with
    | some a => a.data
    | none => '$' :: ds

/-- Left-to-right scan implementing `formatString.replace(/\$(\d+)/g, cb)`:
maximal runs of digits after a `'$'` form a token; everything else is
copied.  The first argument is the digit run collected so far (`none` when
not inside a token). -/
def formatScanAux (args : List String) : Option (List Char) → List Char → List Char
  | none, [] => []
  | some ds, [] => emitToken args ds
  | none, c :: rest =>
    if c = '$' then formatScanAux args (some []) rest
    else c :: formatScanAux args none rest
  | some ds, c :: rest =>
    if c.isDigit then formatScanAux args (some (ds ++ [c])) rest
    else if ds.isEmpty then
      '$' :: (if c = '$' then formatScanAux args (some []) rest
              else c :: formatScanAux args none rest)
    else
      emitToken args ds ++
        (if c = '$' then formatScanAux args (some []) rest
         else c :: formatScanAux args none rest)

/-- Does the string contain the substring `$*`? (`indexOf('$*') !== -1`). -/
def hasDollarStar : List Char → Bool
  | '$' :: '*' :: _ => true
  | _ :: rest => hasDollarStar rest
  | [] => false

/-- JavaScript `String.prototype.replace` with the string pattern `'$*'`:
replaces the first occurrence only. -/
def replaceFirstDollarStar (repl : List Char) : List Char → List Char
  | '$' :: '*' :: rest => repl ++ rest
  | c :: rest => c :: replaceFirstDollarStar repl rest
  | [] => []

/-- The `': $1, $2, ...'` replacement built for `$*` (empty when there are
no parameters). -/
def qqxReplacement (n : Nat) : List Char :=
  if n = 0 then []
  else
    (": " ++ String.intercalate ", "
      ((List.range n).map (fun i => "$" ++ toString (i + 1)))).data

/-- Embedding of `internalDoTransformFormatForQqx` (mwMessage lines 47-59). -/
def internalDoTransformFormatForQqx (cs : List Char) (nparams : Nat) : List Char :=
  if hasDollarStar cs then replaceFirstDollarStar (qqxReplacement nparams) cs
  else cs

/-- Embedding of `format` (mwMessage lines 71-77): the `$*` transform, then
global `$N` substitution. -/
def format (formatString : String) (parameters : List String) : String :=
  String.mk
    (formatScanAux parameters none
      (internalDoTransformFormatForQqx formatString.data parameters.length))

/-! ## The module loader data model (src/server.ts lines 8-41 and 120-203)

Module exports (`ModuleExport`) are opaque JavaScript values whose identity
matters; they are modelled by `Value`, where `obj id tmpl` is a plain
object carrying a unique allocation id (reference identity) and the
optional `template` field attached to `.vue` exports, `builtin` is an entry
of the `builtinModules` table (`Vue`), and `protoFn name` is the member
`name` inherited from `Object.prototype` (reachable through the `in`
check on line 158, see `builtinIn`).

Source text executed by `new Function` is arbitrary JavaScript; the
embedding restricts it to the straight-line fragment `Code` the claims
exercise: a sequence of `require(spec)` calls (each binding its result),
assignments to `module.exports`, a terminating `throw`, or normal
completion.  `SExpr.newObj` is an object literal and allocates a fresh id. -/

inductive Value where
  | undef
  | vnum (n : Int)
  | vstr (s : String)
  | obj (id : Nat) (template : Option String)
  | builtin (name : String)
  | protoFn (name : String)
deriving DecidableEq, Repr

/-- Expressions a modelled script can assign to `module.exports`. -/
inductive SExpr where
  | var (n : Nat)
  | strLit (s : String)
  | numLit (n : Int)
  | newObj
deriving DecidableEq, Repr

/-- Straight-line modelled JavaScript executed by `new Function` (line 135).
`require spec rest` is `const x = require(spec)` (the value is pushed onto
the environment, most recent first); `setExports e rest` is
`module.exports = e`; `throwJs msg` is `throw new Error(msg)`. -/
inductive Code where
  | done
  | require (spec : String) (rest : Code)
  | setExports (e : SExpr) (rest : Code)
  | throwJs (msg : String)
deriving DecidableEq, Repr

/-- Outcome of `parse(code)` from vue/compiler-sfc followed by the accesses
`parsedSFC.descriptor.script.content` (line 129) and
`parsedSFC.descriptor.template` (line 143).  `fatal msg` models the split
phase raising (parse failure, or a missing script block making the
`.content` access throw); `okParsed script template` carries the script
portion and the template block (`none` when the descriptor has no template
block, in which case the `.content` access on line 144 raises after the
script has executed). -/
inductive SFCResult where
  | fatal (msg : String)
  | okParsed (script : Code) (template : Option String)
deriving DecidableEq, Repr

/-- A `string`-typed entry of `files`.  `markup parsed` is text whose
`trim()` starts with `'<'` (the line 126 test), modelled by the outcome of
the markup split; `plain code` is any other text, modelled by the script it
compiles to. -/
inductive SourceText where
  | plain (code : Code)
  | markup (parsed : SFCResult)
deriving DecidableEq, Repr

/-- An entry of `ModuleDefinition.files`: source text or a precomputed
export value (`string | Record<string, unknown>`). -/
inductive FileContent where
  | source (text : SourceText)
  | value (v : Value)
deriving DecidableEq, Repr

/-- The `messages` field (`string | Record<string, string>`).  The string
form is modelled by the outcome of `JSON.parse` on it (line 180):
`strOk entries` parses to an object with these entries, `strFatal msg`
makes `JSON.parse` raise. -/
inductive MessagesVal where
  | record (entries : List (String × String))
  | strOk (entries : List (String × String))
  | strFatal (msg : String)
deriving DecidableEq, Repr

/-- Embedding of `ModuleDefinition` (lines 8-13).  The destructuring
defaults of line 189 (`messages = {}`, `dependencies = []`) are the field
defaults. -/
structure ModuleDefinition where
  files : List (String × FileContent)
  entry : String
  messages : MessagesVal := .record []
  dependencies : List String := []
deriving DecidableEq, Repr

/-- The request's module registry (`RequestData.modules`), read-only. -/
abbrev Registry := List (String × ModuleDefinition)

/-- Failure kinds (spec section 7).  JavaScript raises plain `Error`s or
`TypeError`s; the constructors record the kind and the message-relevant
name.  `unknownModule` covers both the explicit
`Cannot require() undefined module` throw (line 165) and the `TypeError`
raised by destructuring `undefined` when `modules[moduleName]` is absent
(lines 189-190).  `outOfFuel` is the model artifact standing for the
unbounded recursion of the source on cyclic inputs. -/
inductive Err where
  | unknownModule (name : String)
  | unknownFile (name : String)
  | jsError (msg : String)
  | markupError (msg : String)
  | jsonError (msg : String)
  | outOfFuel
deriving DecidableEq, Repr

/-- Ghost observation of execution: `run path` is appended whenever the
function compiled from a file's source text is invoked (line 135);
`merge name` whenever `executeModule` merges `name`'s messages
(line 199). -/
inductive Event where
  | run (path : String)
  | merge (name : String)
deriving DecidableEq, Repr

/-- Embedding of the mutable parts of `RequestExecutionContext`
(lines 26-31) plus the ghost fresh-id counter and trace.  `mockWindow` is
not represented: the modelled scripts never touch it. -/
structure RequestState where
  moduleExportsCache : List (String × Value)
  messageMap : List (String × String)
  nextId : Nat
  trace : List Event
deriving DecidableEq, Repr

/-- The fixed built-in library table (lines 39-41). -/
def builtinModules : List (String × Value) := [("vue", .builtin "vue")]

/-- The own members of `Object.prototype`, reached by the `in` operator on
line 158 through the prototype chain of the `builtinModules` object
literal. -/
def objectProtoMembers : List String :=
  ["constructor", "hasOwnProperty", "isPrototypeOf", "propertyIsEnumerable",
   "toLocaleString", "toString", "valueOf", "__defineGetter__",
   "__defineSetter__", "__lookupGetter__", "__lookupSetter__", "__proto__"]

/-- Embedding of `fileName in builtinModules` (line 158): the `in` operator
consults own properties and the prototype chain, so the inherited
`Object.prototype` member names also test true. -/
def builtinIn (name : String) : Bool :=
  (lookupA builtinModules name).isSome || objectProtoMembers.contains name

/-- Embedding of the property read `builtinModules[fileName]` (line 159)
under the assumption `builtinIn name = true`: the own entry when present,
else the inherited `Object.prototype` member. -/
def builtinGet (name : String) : Value :=
  match lookupA builtinModules name with
  | some v => v
  | none => .protoFn name

/-- Suffix test; models `path.endsWith('.vue')` (line 126). -/
def strEndsWith (s suffx : String) : Bool :=
  suffx.data.isSuffixOf s.data

/-- Evaluate an export expression; `newObj` allocates a fresh object id. -/
def evalSExpr (st : RequestState) (env : List Value) :
    SExpr → Value × RequestState
  | .var n => (env.getD n .undef, st)
  | .strLit s => (.vstr s, st)
  | .numLit n => (.vnum n, st)
  | .newObj => (.obj st.nextId none, { st with nextId := st.nextId + 1 })

/-- The line 143-144 assignment `exports.template = ...`: sets the field on
a plain object export; property assignment on any other modelled value is
a no-op. -/
def setTemplate (v : Value) (t : String) : Value :=
  match v with
  | .obj id _ => .obj id (some t)
  | v' => v'

/-- Embedding of `addMessages` (lines 178-184): decode the string form (the
modelled `JSON.parse` outcome), then `Map.set` every entry in order. -/
def addMessages (messageMap : List (String × String)) :
    MessagesVal → Except Err (List (String × String))
  | .record es => .ok (es.foldl (fun acc kv => mapSet acc kv.1 kv.2) messageMap)
  | .strOk es => .ok (es.foldl (fun acc kv => mapSet acc kv.1 kv.2) messageMap)
  | .strFatal msg => .error (.jsonError msg)

mutual

/-- Embedding of `executeModule` (src/server.ts lines 186-203): memo check,
registry lookup (destructuring `undefined` raises; per the error taxonomy
this is the UnknownModule failure), dependencies in declaration order,
message merge, then the entry file in a fresh module scope, memoizing the
export on success only. -/
def executeModule (fuel : Nat) (reg : Registry) (st : RequestState)
    (moduleName : String) : Except Err Value × RequestState :=
  match fuel with
  | 0 => (.error .outOfFuel, st)
  | fuel + 1 =>
    match lookupA st.moduleExportsCache moduleName with
    | some v => (.ok v, st)
    | none =>
      match lookupA reg moduleName with
      | none => (.error (.unknownModule moduleName), st)
      | some md =>
        match runDeps fuel reg st md.dependencies with
        | (.error e, st1) => (.error e, st1)
        | (.ok _, st1) =>
          match addMessages st1.messageMap md.messages with
          | .error e => (.error e, st1)
          | .ok mm2 =>
            let st2 : RequestState :=
              { st1 with messageMap := mm2,
                         trace := st1.trace ++ [.merge moduleName] }
            match executeFile fuel reg md.files [] st2 md.entry with
            | (.error e, _, st3) => (.error e, st3)
            | (.ok v, _, st3) =>
              (.ok v, { st3 with
                moduleExportsCache := mapSet st3.moduleExportsCache moduleName v })

/-- The `for (const dependency of dependencies)` loop of lines 191-193,
loading each dependency for its side effects; an exception aborts the
loop and propagates. -/
def runDeps (fuel : Nat) (reg : Registry) (st : RequestState) :
    List String → Except Err Unit × RequestState
  | [] => (.ok (), st)
  | d :: ds =>
    match fuel with
    | 0 => (.error .outOfFuel, st)
    | fuel + 1 =>
      match executeModule fuel reg st d with
      | (.ok _, st') => runDeps fuel reg st' ds
      | (.error e, st') => (.error e, st')

/-- Embedding of `executeFile` (lines 120-152).  Note that it does NOT
consult `fileExportsCache`; it always executes (or returns the precomputed
value) and then stores the result, overwriting any existing entry.  An
absent path reads as `undefined`, which is not a string, so `undefined` is
cached and returned.  Markup text in a non-`.vue` path is compiled as
JavaScript by `new Function`, which raises a `SyntaxError` before any
invocation.  On any raised error nothing is stored for `path`. -/
def executeFile (fuel : Nat) (reg : Registry)
    (files : List (String × FileContent)) (cache : List (String × Value))
    (st : RequestState) (path : String) :
    Except Err Value × List (String × Value) × RequestState :=
  match fuel with
  | 0 => (.error .outOfFuel, cache, st)
  | fuel + 1 =>
    match lookupA files path with
    | some (.source text) =>
      match text, strEndsWith path ".vue" with
      | .markup (.fatal msg), true => (.error (.markupError msg), cache, st)
      | .markup (.okParsed code tmpl), true =>
        let st1 : RequestState :=
          { st with nextId := st.nextId + 1, trace := st.trace ++ [.run path] }
        match runCode fuel reg files cache st1 path [] (.obj st.nextId none) code with
        | (.error e, cache', st2) => (.error e, cache', st2)
        | (.ok ex, cache', st2) =>
          match tmpl with
          | none => (.error (.markupError "TypeError: descriptor.template is null"),
                     cache', st2)
          | some t =>
            let ex' := setTemplate ex t
            (.ok ex', mapSet cache' path ex', st2)
      | .markup _, false => (.error (.jsError "SyntaxError"), cache, st)
      | .plain code, _ =>
        let st1 : RequestState :=
          { st with nextId := st.nextId + 1, trace := st.trace ++ [.run path] }
        match runCode fuel reg files cache st1 path [] (.obj st.nextId none) code with
        | (.error e, cache', st2) => (.error e, cache', st2)
        | (.ok ex, cache', st2) => (.ok ex, mapSet cache' path ex, st2)
    | some (.value v) => (.ok v, mapSet cache path v, st)
    | none => (.ok .undef, mapSet cache path .undef, st)

/-- Embedding of the function returned by `makeRequireFunction` (lines
154-176), closed over the module scope and the current file's `path`:
relative specs must resolve within the module's files (else UnknownFile)
and hit `fileExportsCache` before re-executing; non-relative specs check
`fileName in builtinModules` first (prototype chain included), then the
registry (delegating to `executeModule`), else UnknownModule. -/
def requireFun (fuel : Nat) (reg : Registry)
    (files : List (String × FileContent)) (cache : List (String × Value))
    (st : RequestState) (path : String) (fileName : String) :
    Except Err Value × List (String × Value) × RequestState :=
  match fuel with
  | 0 => (.error .outOfFuel, cache, st)
  | fuel + 1 =>
    match resolveRelativePath fileName path with
    | none =>
      if builtinIn fileName then (.ok (builtinGet fileName), cache, st)
      else if (lookupA reg fileName).isSome then
        match executeModule fuel reg st fileName with
        | (r, st') => (r, cache, st')
      else (.error (.unknownModule fileName), cache, st)
    | some resolved =>
      if (lookupA files resolved).isNone then
        (.error (.unknownFile fileName), cache, st)
      else
        match lookupA cache resolved with
        | some v => (.ok v, cache, st)
        | none => executeFile fuel reg files cache st resolved

/-- Run a modelled script: `curPath` is the path the injected require is
bound to, `env` the values bound by earlier `require` statements (most
recent first), `exportsV` the current `module.exports` (initially the
fresh empty object allocated by `executeFile`). -/
def runCode (fuel : Nat) (reg : Registry)
    (files : List (String × FileContent)) (cache : List (String × Value))
    (st : RequestState) (curPath : String) (env : List Value)
    (exportsV : Value) :
    Code → Except Err Value × List (String × Value) × RequestState
  | .done => (.ok exportsV, cache, st)
  | .throwJs msg => (.error (.jsError msg), cache, st)
  | .require spec rest =>
    match fuel with
    | 0 => (.error .outOfFuel, cache, st)
    | fuel + 1 =>
      match requireFun fuel reg files cache st curPath spec with
      | (.error e, cache', st') => (.error e, cache', st')
      | (.ok v, cache', st') =>
        runCode fuel reg files cache' st' curPath (v :: env) exportsV rest
  | .setExports e rest =>
    match fuel with
    | 0 => (.error .outOfFuel, cache, st)
    | fuel + 1 =>
      let p := evalSExpr st env e
      runCode fuel reg files cache p.2 curPath env p.1 rest

end

/-- Embedding of the `RequestExecutionContext` constructed by the request
handler (lines 275-278): memo seeded with the spread of `builtinModules`
(own enumerable properties only), empty message map, fresh counters. -/
def initRequestState : RequestState :=
  { moduleExportsCache := builtinModules, messageMap := [], nextId := 0,
    trace := [] }

/-- The request handler's load of the target module (line 280) with the
supplied registry and `mainModule` name. -/
def loadMainModule (fuel : Nat) (reg : Registry) (mainModule : String) :
    Except Err Value × RequestState :=
  executeModule fuel reg initRequestState mainModule

/-! ## Helper lemmas about the loader -/

/-- A successful `executeFile` leaves the returned export in the module
scope's file cache under the executed path (line 150 stores before line 151
returns). -/
theorem executeFile_success_caches {fuel : Nat} {reg : Registry}
    {files : List (String × FileContent)} {cache : List (String × Value)}
    {st : RequestState} {path : String} {v : Value}
    {cache' : List (String × Value)} {st' : RequestState}
    (h : executeFile fuel reg files cache st path = (.ok v, cache', st')) :
    lookupA cache' path = some v := by
  cases fuel with
  | zero => simp [executeFile] at h
  | succ n =>
    unfold executeFile at h
    split at h
    · split at h
      · simp at h
      · dsimp only at h
        split at h
        · simp at h
        · split at h
          · simp at h
          · simp only [Prod.mk.injEq, Except.ok.injEq] at h
            obtain ⟨rfl, rfl, rfl⟩ := h
            exact lookupA_mapSet_self _ _ _
      · simp at h
      · dsimp only at h
        split at h
        · simp at h
        · simp only [Prod.mk.injEq, Except.ok.injEq] at h
          obtain ⟨rfl, rfl, rfl⟩ := h
          exact lookupA_mapSet_self _ _ _
    · simp only [Prod.mk.injEq, Except.ok.injEq] at h
      obtain ⟨rfl, rfl, rfl⟩ := h
      exact lookupA_mapSet_self _ _ _
    · simp only [Prod.mk.injEq, Except.ok.injEq] at h
      obtain ⟨rfl, rfl, rfl⟩ := h
      exact lookupA_mapSet_self _ _ _

/-- A successful `executeModule` leaves the returned export in the
per-request memo under the module name (line 200 stores before line 202
returns). -/
theorem executeModule_success_caches {fuel : Nat} {reg : Registry}
    {st : RequestState} {m : String} {v : Value} {st' : RequestState}
    (h : executeModule fuel reg st m = (.ok v, st')) :
    lookupA st'.moduleExportsCache m = some v := by
  cases fuel with
  | zero => simp [executeModule] at h
  | succ n =>
    unfold executeModule at h
    split at h
    · rename_i w hw
      simp only [Prod.mk.injEq, Except.ok.injEq] at h
      obtain ⟨rfl, rfl⟩ := h
      exact hw
    · split at h
      · simp at h
      · split at h
        · simp at h
        · split at h
          · simp at h
          · dsimp only at h
            split at h
            · simp at h
            · simp only [Prod.mk.injEq, Except.ok.injEq] at h
              obtain ⟨rfl, rfl⟩ := h
              simp [lookupA_mapSet_self]

/-- The require function's cache hit (lines 170-172): a relative spec whose
resolved path exists in the module's files and is present in the file cache
returns the cached value with no state change. -/
theorem requireFun_cached {fuel : Nat} {reg : Registry}
    {files : List (String × FileContent)} {cache : List (String × Value)}
    {st : RequestState} {path n q : String} {v : Value}
    (hres : resolveRelativePath n path = some q)
    (hfiles : (lookupA files q).isNone = false)
    (hcache : lookupA cache q = some v) :
    requireFun (fuel + 1) reg files cache st path n = (.ok v, cache, st) := by
  simp [requireFun, hres, hfiles, hcache]

/-- The loader's state mutations are monotone: module-export memo entries
present at call entry survive with the same value (line 200 only inserts
names that were absent), and message-map keys present at entry survive
(`Map.set` only updates or appends). -/
def StPres (st st' : RequestState) : Prop :=
  (∀ k v, lookupA st.moduleExportsCache k = some v →
    lookupA st'.moduleExportsCache k = some v) ∧
  (∀ k, (lookupA st.messageMap k).isSome = true →
    (lookupA st'.messageMap k).isSome = true)

theorem stPres_refl (st : RequestState) : StPres st st :=
  ⟨fun _ _ hk => hk, fun _ hk => hk⟩

theorem stPres_trans {a b c : RequestState} (h1 : StPres a b) (h2 : StPres b c) :
    StPres a c :=
  ⟨fun k v hk => h2.1 k v (h1.1 k v hk), fun k hk => h2.2 k (h1.2 k hk)⟩

theorem lookupA_foldl_mapSet_isSome (es : List (String × String))
    (m : List (String × String)) (k : String)
    (h : (lookupA m k).isSome = true) :
    (lookupA (es.foldl (fun acc kv => mapSet acc kv.1 kv.2) m) k).isSome = true := by
  induction es generalizing m with
  | nil => exact h
  | cons e rest ih => exact ih _ (lookupA_mapSet_isSome _ _ _ h)

theorem addMessages_isSome {m m2 : List (String × String)} {msgs : MessagesVal}
    (h : addMessages m msgs = .ok m2) (k : String)
    (hk : (lookupA m k).isSome = true) : (lookupA m2 k).isSome = true := by
  cases msgs with
  | record es =>
    simp only [addMessages, Except.ok.injEq] at h
    subst h
    exact lookupA_foldl_mapSet_isSome es m k hk
  | strOk es =>
    simp only [addMessages, Except.ok.injEq] at h
    subst h
    exact lookupA_foldl_mapSet_isSome es m k hk
  | strFatal msg => simp [addMessages] at h

theorem evalSExpr_preserves (st : RequestState) (env : List Value) (e : SExpr) :
    (evalSExpr st env e).2.moduleExportsCache = st.moduleExportsCache ∧
    (evalSExpr st env e).2.messageMap = st.messageMap := by
  cases e <;> simp [evalSExpr]

theorem statePres : ∀ fuel : Nat,
    (∀ reg st m out, executeModule fuel reg st m = out → StPres st out.2) ∧
    (∀ reg st ds out, runDeps fuel reg st ds = out → StPres st out.2) ∧
    (∀ reg files cache st p out,
      executeFile fuel reg files cache st p = out → StPres st out.2.2) ∧
    (∀ reg files cache st p n out,
      requireFun fuel reg files cache st p n = out → StPres st out.2.2) ∧
    (∀ reg files cache st cp env ex c out,
      runCode fuel reg files cache st cp env ex c = out → StPres st out.2.2) := by
  intro fuel
  induction fuel with
  | zero =>
    refine ⟨?_, ?_, ?_, ?_, ?_⟩
    · intro reg st m out h; rw [← h]; exact stPres_refl st
    · intro reg st ds out h
      cases ds <;> (rw [← h]; exact stPres_refl st)
    · intro reg files cache st p out h; rw [← h]; exact stPres_refl st
    · intro reg files cache st p n out h; rw [← h]; exact stPres_refl st
    · intro reg files cache st cp env ex c out h
      cases c <;> (rw [← h]; exact stPres_refl st)
  | succ n ih =>
    obtain ⟨ihM, ihD, ihF, ihR, ihC⟩ := ih
    refine ⟨?_, ?_, ?_, ?_, ?_⟩
    · -- executeModule
      intro reg st m out h
      unfold executeModule at h
      split at h
      · rw [← h]; exact stPres_refl st
      · rename_i hmemo
        split at h
        · rw [← h]; exact stPres_refl st
        · rename_i md hreg
          split at h
          · rename_i e st1 heqd
            rw [← h]
            exact ihD _ _ _ _ heqd
          · rename_i u st1 heqd
            split at h
            · rename_i e heqm
              rw [← h]
              exact ihD _ _ _ _ heqd
            · rename_i mm2 heqm
              dsimp only at h
              have pres12 : StPres st1
                  { st1 with messageMap := mm2,
                             trace := st1.trace ++ [.merge m] } :=
                ⟨fun k v hk => hk, fun k hk => addMessages_isSome heqm k hk⟩
              split at h
              · rename_i e cf st3 heqf
                rw [← h]
                exact stPres_trans (stPres_trans (ihD _ _ _ _ heqd) pres12)
                  (ihF _ _ _ _ _ _ heqf)
              · rename_i v cf st3 heqf
                rw [← h]
                have h13 : StPres st st3 :=
                  stPres_trans (stPres_trans (ihD _ _ _ _ heqd) pres12)
                    (ihF _ _ _ _ _ _ heqf)
                refine ⟨fun k v' hk => ?_, h13.2⟩
                have hk3 := h13.1 k v' hk
                have hkm : k ≠ m := by
                  intro he
                  rw [he, hmemo] at hk
                  cases hk
                dsimp only
                rw [lookupA_mapSet_ne _ _ hkm]
                exact hk3
    · -- runDeps
      intro reg st ds out h
      cases ds with
      | nil => rw [← h]; exact stPres_refl st
      | cons d ds' =>
        unfold runDeps at h
        dsimp only at h
        split at h
        · rename_i w st1 heq1
          exact stPres_trans (ihM _ _ _ _ heq1) (ihD _ _ _ _ h)
        · rename_i e st1 heq1
          rw [← h]
          exact ihM _ _ _ _ heq1
    · -- executeFile
      intro reg files cache st p out h
      unfold executeFile at h
      split at h
      · split at h
        · rw [← h]; exact stPres_refl st
        · dsimp only at h
          rename_i code tmpl heq2
          have pres1 : StPres st
              { st with nextId := st.nextId + 1,
                        trace := st.trace ++ [.run p] } :=
            ⟨fun k v hk => hk, fun k hk => hk⟩
          split at h
          · rename_i e c2 st2 heqc
            rw [← h]
            exact stPres_trans pres1 (ihC _ _ _ _ _ _ _ _ _ heqc)
          · rename_i ex2 c2 st2 heqc
            have hx := ihC _ _ _ _ _ _ _ _ _ heqc
            split at h <;> (rw [← h]; exact stPres_trans pres1 hx)
        · rw [← h]; exact stPres_refl st
        · dsimp only at h
          rename_i code heq2
          have pres1 : StPres st
              { st with nextId := st.nextId + 1,
                        trace := st.trace ++ [.run p] } :=
            ⟨fun k v hk => hk, fun k hk => hk⟩
          split at h
          · rename_i e c2 st2 heqc
            rw [← h]
            exact stPres_trans pres1 (ihC _ _ _ _ _ _ _ _ _ heqc)
          · rename_i ex2 c2 st2 heqc
            have hx := ihC _ _ _ _ _ _ _ _ _ heqc
            rw [← h]
            exact stPres_trans pres1 hx
      · rw [← h]; exact stPres_refl st
      · rw [← h]; exact stPres_refl st
    · -- requireFun
      intro reg files cache st p n' out h
      unfold requireFun at h
      split at h
      · split at h
        · rw [← h]; exact stPres_refl st
        · split at h
          · split at h
            rename_i r st' heq1
            rw [← h]
            exact ihM _ _ _ _ heq1
          · rw [← h]; exact stPres_refl st
      · split at h
        · rw [← h]; exact stPres_refl st
        · split at h
          · rw [← h]; exact stPres_refl st
          · exact ihF _ _ _ _ _ _ h
    · -- runCode
      intro reg files cache st cp env ex c out h
      cases c with
      | done => rw [← h]; exact stPres_refl st
      | throwJs msg => rw [← h]; exact stPres_refl st
      | require spec rest =>
        unfold runCode at h
        dsimp only at h
        split at h
        · rename_i e c2 s2 heq1
          rw [← h]
          exact ihR _ _ _ _ _ _ _ heq1
        · rename_i v c2 s2 heq1
          exact stPres_trans (ihR _ _ _ _ _ _ _ heq1) (ihC _ _ _ _ _ _ _ _ _ h)
      | setExports e rest =>
        unfold runCode at h
        dsimp only at h
        have presE : StPres st (evalSExpr st env e).2 := by
          obtain ⟨h1, h2⟩ := evalSExpr_preserves st env e
          exact ⟨fun k v hk => by rw [h1]; exact hk,
                 fun k hk => by rw [h2]; exact hk⟩
        exact stPres_trans presE (ihC _ _ _ _ _ _ _ _ _ h)

/-! ## Claim C1: per-request module memoization -/

/-- C1: loading a module a second time within the same request consults the
per-request module-export memo first and returns the memoized value
unchanged: after any successful load producing export `v` and state `st'`,
a later load of the same name returns the identical export reference `v`
and leaves the state — including the execution trace, so the entry file is
not executed again — exactly `st'`. -/
theorem executeModule_memoized_second_load {f g : Nat} {reg : Registry}
    {st : RequestState} {m : String} {v : Value} {st' : RequestState}
    (h : executeModule f reg st m = (.ok v, st')) :
    executeModule (g + 1) reg st' m = (.ok v, st') := by
  have hc := executeModule_success_caches h
  simp [executeModule, hc]

/-- A one-module registry used by several witnesses. -/
def regW : Registry :=
  [("main", { files := [("index.js", .source (.plain .done))],
              entry := "index.js" })]

/-- The state after loading `"main"` from `regW`. -/
def stW : RequestState :=
  { moduleExportsCache := [("vue", .builtin "vue"), ("main", .obj 0 none)],
    messageMap := [], nextId := 1,
    trace := [.merge "main", .run "index.js"] }

/-- C1, witness: the first load of `"main"` executes its entry (one `run`
event) and the second load returns the identical export and state. -/
theorem executeModule_memoized_second_load_witness :
    executeModule 10 regW initRequestState "main" = (.ok (.obj 0 none), stW) ∧
    executeModule 6 regW stW "main" = (.ok (.obj 0 none), stW) :=
  ⟨rfl,
   @executeModule_memoized_second_load 10 5 regW initRequestState "main"
     (.obj 0 none) stW rfl⟩

/-! ## Claim C2: per-module-load file memoization -/

/-- C2: within one module load, when a require resolving to path `q`
succeeds with export `v`, any later require resolving to the same `q`
returns the very same export reference `v` from `fileExportsCache`, with no
re-execution and no state change. -/
theorem require_second_same_reference {f g : Nat} {reg : Registry}
    {files : List (String × FileContent)} {cache : List (String × Value)}
    {st : RequestState} {p1 n1 p2 n2 q : String} {v : Value}
    {cache' : List (String × Value)} {st' : RequestState}
    (h1 : requireFun f reg files cache st p1 n1 = (.ok v, cache', st'))
    (hr1 : resolveRelativePath n1 p1 = some q)
    (hr2 : resolveRelativePath n2 p2 = some q) :
    requireFun (g + 1) reg files cache' st' p2 n2 = (.ok v, cache', st') := by
  cases f with
  | zero => simp [requireFun] at h1
  | succ f' =>
    simp only [requireFun, hr1] at h1
    split at h1
    · simp at h1
    · rename_i hf
      have hfiles : (lookupA files q).isNone = false := by
        cases hlf : lookupA files q <;> simp_all
      split at h1
      · rename_i w hc
        simp only [Prod.mk.injEq, Except.ok.injEq] at h1
        obtain ⟨rfl, rfl, rfl⟩ := h1
        exact requireFun_cached hr2 hfiles hc
      · have hcv := executeFile_success_caches h1
        exact requireFun_cached hr2 hfiles hcv

/-- Files of the C2 witness module. -/
def filesW : List (String × FileContent) :=
  [("a.js", .source (.plain .done)), ("m.js", .source (.plain .done))]

/-- C2, witness: `"m.js"` requires `./a.js` twice; the first require
executes `a.js` (export `obj 0`), the second returns the identical
reference with nothing changed. -/
theorem require_second_same_reference_witness :
    requireFun 10 [] filesW [] initRequestState "m.js" "./a.js"
      = (.ok (.obj 0 none), [("a.js", .obj 0 none)],
         { moduleExportsCache := builtinModules, messageMap := [],
           nextId := 1, trace := [.run "a.js"] }) ∧
    requireFun 4 [] filesW [("a.js", .obj 0 none)]
        { moduleExportsCache := builtinModules, messageMap := [],
          nextId := 1, trace := [.run "a.js"] } "m.js" "./a.js"
      = (.ok (.obj 0 none), [("a.js", .obj 0 none)],
         { moduleExportsCache := builtinModules, messageMap := [],
           nextId := 1, trace := [.run "a.js"] }) :=
  ⟨rfl,
   @require_second_same_reference 10 3 [] filesW [] initRequestState
     "m.js" "./a.js" "m.js" "./a.js" "a.js" (.obj 0 none)
     [("a.js", .obj 0 none)]
     { moduleExportsCache := builtinModules, messageMap := [],
       nextId := 1, trace := [.run "a.js"] }
     rfl rfl rfl⟩

/-! ## Claim C5: where the file-cache check lives -/

/-- Files of the C5 counterexample. -/
def filesC5 : List (String × FileContent) := [("a.js", .source (.plain .done))]

/-- A pre-populated file cache for the C5 counterexample. -/
def cacheC5 : List (String × Value) := [("a.js", .obj 99 none)]

/-- C5, counterexample: `executeFile` itself does not consult
`fileExportsCache`.  With `"a.js"` already cached (value `obj 99`), calling
`executeFile` on it executes the source again (a new `run` trace event and
a fresh object `obj 0`), overwrites the cache entry, and returns an export
that is not reference-equal to the cached one — contradicting the claim
that `executeFile` first checks the cache and returns the cached value. -/
theorem executeFile_ignores_cache_counterexample :
    lookupA cacheC5 "a.js" = some (.obj 99 none) ∧
    executeFile 10 [] filesC5 cacheC5 initRequestState "a.js"
      = (.ok (.obj 0 none), [("a.js", .obj 0 none)],
         { moduleExportsCache := builtinModules, messageMap := [],
           nextId := 1, trace := [.run "a.js"] }) ∧
    Value.obj 0 none ≠ Value.obj 99 none :=
  ⟨rfl, rfl, by decide⟩

/-- C5, amended: the fileExportCache check is performed by the injected
require function (lines 170-172), not by `executeFile`: for every path
already present in `fileExportsCache`, a require resolving to that path
returns the cached entry, reference-equal to prior calls, without invoking
`executeFile` (no state change, no execution); `executeFile` itself always
executes and overwrites. -/
theorem require_checks_file_cache {fuel : Nat} {reg : Registry}
    {files : List (String × FileContent)} {cache : List (String × Value)}
    {st : RequestState} {path n q : String} {v : Value}
    (hres : resolveRelativePath n path = some q)
    (hfiles : (lookupA files q).isNone = false)
    (hcache : lookupA cache q = some v) :
    requireFun (fuel + 1) reg files cache st path n = (.ok v, cache, st) :=
  requireFun_cached hres hfiles hcache

/-- C5, witness: requiring the already-cached `"a.js"` returns the cached
`obj 99` unchanged, with no execution. -/
theorem require_checks_file_cache_witness :
    requireFun 7 [] filesC5 cacheC5 initRequestState "m.js" "./a.js"
      = (.ok (.obj 99 none), cacheC5, initRequestState) :=
  @require_checks_file_cache 6 [] filesC5 cacheC5 initRequestState
    "m.js" "./a.js" "a.js" (.obj 99 none) rfl rfl rfl

/-! ## Claim C6: unknown module names -/

/-- C6, counterexample: the per-request memo is seeded with the built-in
exports and `executeModule` consults it before the registry, so the module
name "vue" — absent from an empty registry and supplied as the request's
main module — returns the built-in Vue export instead of failing. -/
theorem builtin_main_module_counterexample :
    lookupA ([] : Registry) "vue" = none ∧
    loadMainModule 5 [] "vue" = (.ok (.builtin "vue"), initRequestState) :=
  ⟨rfl, rfl⟩

/-- C6, amended: for every module name absent from the per-request module
export memo (which is seeded with only the built-in names such as "vue")
and absent from the registry, `executeModule` fails with UnknownModule
rather than returning a value (in JavaScript the failure is the `TypeError`
raised by destructuring the `undefined` registry entry on lines 189-190;
per the spec's taxonomy that failure kind is UnknownModule), and the state
is unchanged. -/
theorem executeModule_unknown_module {fuel : Nat} {reg : Registry}
    {st : RequestState} {m : String}
    (hmemo : lookupA st.moduleExportsCache m = none)
    (hreg : lookupA reg m = none) :
    executeModule (fuel + 1) reg st m = (.error (.unknownModule m), st) := by
  simp [executeModule, hmemo, hreg]

/-- C6, witness: an unknown main-module name fails with UnknownModule. -/
theorem executeModule_unknown_module_witness :
    loadMainModule 5 [] "nosuch"
      = (.error (.unknownModule "nosuch"), initRequestState) :=
  @executeModule_unknown_module 4 [] initRequestState "nosuch" rfl rfl

/-! ## Claim C7: require dispatch -/

/-- C7, counterexample: the built-in check on line 158 is
`fileName in builtinModules`, and the JavaScript `in` operator also finds
the members the `builtinModules` object literal inherits from
`Object.prototype`.  Requiring `"hasOwnProperty"` — not an entry of the
built-in table, not declared in the (empty) registry — therefore returns
the inherited function instead of failing with UnknownModule, contradicting
the claim's trichotomy. -/
theorem require_proto_member_counterexample :
    lookupA builtinModules "hasOwnProperty" = none ∧
    lookupA ([] : Registry) "hasOwnProperty" = none ∧
    requireFun 5 [] [] [] initRequestState "m.js" "hasOwnProperty"
      = (.ok (.protoFn "hasOwnProperty"), [], initRequestState) :=
  ⟨rfl, rfl, rfl⟩

/-- C7, amended: for every non-relative spec the require function first
evaluates `spec in builtinModules` — true for the built-in table's names
and for the names `builtinModules` inherits from `Object.prototype` — and
returns the corresponding value immediately when it holds; otherwise, if
the registry declares a module of that exact name it delegates to the
module loader (`executeModule`), and otherwise it throws UnknownModule.
For every relative spec whose resolved path is absent from the current
module's file set it throws UnknownFile. -/
theorem require_dispatch :
    (∀ (fuel : Nat) (reg : Registry) (files : List (String × FileContent))
       (cache : List (String × Value)) (st : RequestState) (p n : String),
      resolveRelativePath n p = none → builtinIn n = true →
      requireFun (fuel + 1) reg files cache st p n
        = (.ok (builtinGet n), cache, st)) ∧
    (∀ (fuel : Nat) (reg : Registry) (files : List (String × FileContent))
       (cache : List (String × Value)) (st : RequestState) (p n : String),
      resolveRelativePath n p = none → builtinIn n = false →
      (lookupA reg n).isSome = true →
      requireFun (fuel + 1) reg files cache st p n
        = ((executeModule fuel reg st n).1, cache,
           (executeModule fuel reg st n).2)) ∧
    (∀ (fuel : Nat) (reg : Registry) (files : List (String × FileContent))
       (cache : List (String × Value)) (st : RequestState) (p n : String),
      resolveRelativePath n p = none → builtinIn n = false →
      (lookupA reg n).isSome = false →
      requireFun (fuel + 1) reg files cache st p n
        = (.error (.unknownModule n), cache, st)) ∧
    (∀ (fuel : Nat) (reg : Registry) (files : List (String × FileContent))
       (cache : List (String × Value)) (st : RequestState) (p n q : String),
      resolveRelativePath n p = some q → (lookupA files q).isNone = true →
      requireFun (fuel + 1) reg files cache st p n
        = (.error (.unknownFile n), cache, st)) := by
  refine ⟨?_, ?_, ?_, ?_⟩
  · intro fuel reg files cache st p n hres hb
    simp [requireFun, hres, hb]
  · intro fuel reg files cache st p n hres hb hr
    simp only [requireFun, hres, hb, hr]
    simp
  · intro fuel reg files cache st p n hres hb hr
    simp [requireFun, hres, hb, hr]
  · intro fuel reg files cache st p n q hres habs
    simp [requireFun, hres, habs]

/-- C7, witness: the four dispatch cases at concrete inputs — the built-in
"vue", a registry module (delegation), an unknown name, and a relative spec
outside the file set. -/
theorem require_dispatch_witness :
    requireFun 5 [] [] [] initRequestState "m.js" "vue"
      = (.ok (.builtin "vue"), [], initRequestState) ∧
    requireFun 5 regW [] [] initRequestState "m.js" "main"
      = ((executeModule 4 regW initRequestState "main").1, [],
         (executeModule 4 regW initRequestState "main").2) ∧
    requireFun 5 [] [] [] initRequestState "m.js" "nosuch"
      = (.error (.unknownModule "nosuch"), [], initRequestState) ∧
    requireFun 5 [] [] [] initRequestState "m.js" "./a.js"
      = (.error (.unknownFile "./a.js"), [], initRequestState) :=
  ⟨require_dispatch.1 4 [] [] [] initRequestState "m.js" "vue" rfl rfl,
   require_dispatch.2.1 4 regW [] [] initRequestState "m.js" "main" rfl rfl rfl,
   require_dispatch.2.2.1 4 [] [] [] initRequestState "m.js" "nosuch" rfl rfl rfl,
   require_dispatch.2.2.2 4 [] [] [] initRequestState "m.js" "./a.js" "a.js"
     rfl rfl⟩

/-! ## Claim C4: dependency ordering, message merging, at-most-once -/

/-- The registry of the C4 scenario: module `M` declares
`dependencies = ["A", "B"]`, carries a message under the key `"k"` that
module `A` also defines, and its entry `m.js` requires `"A"` a second
time. -/
def regC4 : Registry :=
  [("A", { files := [("a.js", .source (.plain .done))], entry := "a.js",
           messages := .record [("k", "a"), ("ka", "va")] }),
   ("B", { files := [("b.js", .source (.plain .done))], entry := "b.js",
           messages := .record [("kb", "vb")] }),
   ("M", { files := [("m.js", .source (.plain (.require "A" .done)))],
           entry := "m.js", messages := .record [("k", "m")],
           dependencies := ["A", "B"] })]

/-- C4: loading `M` (dependencies `["A", "B"]`) merges A's messages and
executes A's entry, then merges B's messages and executes B's entry, in
declaration order, before M's own messages are merged and M's own entry
executes — the trace is exactly
`[merge A, run a.js, merge B, run b.js, merge M, run m.js]`.  Although
`m.js` requires `"A"` again, `a.js` appears in the trace once: each
dependency executes at most once per request.  The later merge of M's
`("k", "m")` overwrote A's earlier value under the same key in place, so
the insertion-ordered message store ends as
`[("k", "m"), ("ka", "va"), ("kb", "vb")]`. -/
theorem dependency_order_and_memoization :
    executeModule 20 regC4 initRequestState "M" =
      (.ok (.obj 2 none),
       { moduleExportsCache :=
           [("vue", .builtin "vue"), ("A", .obj 0 none), ("B", .obj 1 none),
            ("M", .obj 2 none)],
         messageMap := [("k", "m"), ("ka", "va"), ("kb", "vb")],
         nextId := 3,
         trace := [.merge "A", .run "a.js", .merge "B", .run "b.js",
                   .merge "M", .run "m.js"] }) :=
  rfl

/-! ## Claim C3: path resolution -/

theorem stripRelRun_not_rel {cs : List Char} (h : startsRelChars cs = false) :
    stripRelRun cs = ([], cs) := by
  rw [stripRelRun.eq_def]
  split
  · exfalso; simp [startsRelChars] at h
  · exfalso; simp [startsRelChars] at h
  · rfl

/-- C3, counterexample: `"./a\nb"` does begin with a run of `./` segments,
yet `resolveRelativePath` returns the not-relative signal `null` instead of
joining, because the ECMAScript `.` in the source's regular expression does
not match the line terminator in the remainder; the claim's two-way split
("null exactly for specs not beginning with a run; otherwise the join") is
therefore false at this input. -/
theorem resolveRelativePath_newline_counterexample :
    startsRel "./a\nb" = true ∧
    resolveRelativePath "./a\nb" "dir/b.js" = none := by
  exact ⟨rfl, rfl⟩

/-- C3, amended: `resolveRelativePath` returns the not-relative signal
(null) for every `relativeSpec` that does not begin with a `./` or `../`
segment, and likewise whenever the remainder after the leading run of such
segments contains a line terminator (a consequence of `.`/`$` in the
source's regular expression); otherwise it drops `basePath`'s last segment,
pops one directory per `../` token, and joins with `/`:
`resolveRelativePath "./a.js" "dir/b.js" = "dir/a.js"`,
`resolveRelativePath "../a.js" "dir/sub/b.js" = "dir/a.js"`, and popping
past an empty directory stack never raises, yielding the remainder path
with no directory prefix (`resolveRelativePath "../../a.js" "dir/b.js" =
"a.js"`). -/
theorem resolveRelativePath_spec :
    (∀ s b : String, startsRel s = false → resolveRelativePath s b = none) ∧
    (∀ s b : String,
      (stripRelRun s.data).2.any isLineTerminator = true →
      resolveRelativePath s b = none) ∧
    resolveRelativePath "./a.js" "dir/b.js" = some "dir/a.js" ∧
    resolveRelativePath "../a.js" "dir/sub/b.js" = some "dir/a.js" ∧
    resolveRelativePath "../../a.js" "dir/b.js" = some "a.js" := by
  refine ⟨?_, ?_, rfl, rfl, rfl⟩
  · intro s b h
    unfold resolveRelativePath
    rw [stripRelRun_not_rel h]
    rfl
  · intro s b h
    unfold resolveRelativePath
    simp [h]

/-- C3, witness: the amended theorem applied at concrete inputs. -/
theorem resolveRelativePath_spec_witness :
    resolveRelativePath "a.js" "dir/b.js" = none ∧
    resolveRelativePath "../x\ry" "dir/b.js" = none :=
  ⟨resolveRelativePath_spec.1 "a.js" "dir/b.js" rfl,
   resolveRelativePath_spec.2.1 "../x\ry" "dir/b.js" rfl⟩

/-! ## Claim C8: failures propagate unmodified and are never cached -/

/-- C8: (i) a `.vue` file whose markup split reports a fatal error makes
`executeFile` propagate exactly that error with the file cache and state
untouched — nothing is stored for the path; (ii) a plain source file whose
script execution raises makes `executeFile` return exactly the script's
error, cache, and state — the line 150 store is skipped, so `executeFile`
adds no entry for the path; (iii) a module whose entry-file execution fails
makes `executeModule` return exactly that error and state — the line 200
memo store is skipped, so the module loader adds no entry to the
per-request `moduleExportsCache`. -/
theorem failure_not_cached :
    (∀ (fuel : Nat) (reg : Registry) (files : List (String × FileContent))
       (cache : List (String × Value)) (st : RequestState) (p msg : String),
      strEndsWith p ".vue" = true →
      lookupA files p = some (.source (.markup (.fatal msg))) →
      executeFile (fuel + 1) reg files cache st p
        = (.error (.markupError msg), cache, st)) ∧
    (∀ (fuel : Nat) (reg : Registry) (files : List (String × FileContent))
       (cache : List (String × Value)) (st : RequestState) (p : String)
       (code : Code) (e : Err) (cache2 : List (String × Value))
       (st2 : RequestState),
      lookupA files p = some (.source (.plain code)) →
      runCode fuel reg files cache
        { st with nextId := st.nextId + 1, trace := st.trace ++ [.run p] }
        p [] (.obj st.nextId none) code = (.error e, cache2, st2) →
      executeFile (fuel + 1) reg files cache st p = (.error e, cache2, st2)) ∧
    (∀ (fuel : Nat) (reg : Registry) (st : RequestState) (m : String)
       (md : ModuleDefinition) (u : Unit) (st1 : RequestState)
       (mm2 : List (String × String)) (e : Err)
       (cache2 : List (String × Value)) (st3 : RequestState),
      lookupA st.moduleExportsCache m = none →
      lookupA reg m = some md →
      runDeps fuel reg st md.dependencies = (.ok u, st1) →
      addMessages st1.messageMap md.messages = .ok mm2 →
      executeFile fuel reg md.files []
        { st1 with messageMap := mm2, trace := st1.trace ++ [.merge m] }
        md.entry = (.error e, cache2, st3) →
      executeModule (fuel + 1) reg st m = (.error e, st3)) := by
  refine ⟨?_, ?_, ?_⟩
  · intro fuel reg files cache st p msg hvue hfile
    simp [executeFile, hfile, hvue]
  · intro fuel reg files cache st p code e cache2 st2 hfile hrun
    simp [executeFile, hfile, hrun]
  · intro fuel reg st m md u st1 mm2 e cache2 st3 hmemo hreg hdeps hmsg hfail
    simp [executeModule, hmemo, hreg, hdeps, hmsg, hfail]

/-- Files of the C8 witness: a `.vue` file with a fatal markup split and a
plain file whose script throws. -/
def filesC8 : List (String × FileContent) :=
  [("c.vue", .source (.markup (.fatal "parse failed"))),
   ("t.js", .source (.plain (.throwJs "boom")))]

/-- The registry of the C8/C10 witness: module `T`'s entry throws. -/
def regC8 : Registry := [("T", { files := filesC8, entry := "t.js" })]

/-- C8, witness: the three failure cases at concrete inputs — the fatal
`.vue` split, the throwing script (error propagated, nothing cached for
the path), and the module whose entry failed (no memo entry added). -/
theorem failure_not_cached_witness :
    executeFile 3 [] filesC8 [] initRequestState "c.vue"
      = (.error (.markupError "parse failed"), [], initRequestState) ∧
    executeFile 3 [] filesC8 [] initRequestState "t.js"
      = (.error (.jsError "boom"), [],
         { moduleExportsCache := builtinModules, messageMap := [],
           nextId := 1, trace := [.run "t.js"] }) ∧
    executeModule 3 regC8 initRequestState "T"
      = (.error (.jsError "boom"),
         { moduleExportsCache := builtinModules, messageMap := [],
           nextId := 1, trace := [.merge "T", .run "t.js"] }) :=
  ⟨failure_not_cached.1 2 [] filesC8 [] initRequestState "c.vue" "parse failed"
     rfl rfl,
   failure_not_cached.2.1 2 [] filesC8 [] initRequestState "t.js"
     (.throwJs "boom") (.jsError "boom") []
     { moduleExportsCache := builtinModules, messageMap := [],
       nextId := 1, trace := [.run "t.js"] } rfl rfl,
   failure_not_cached.2.2 2 regC8 initRequestState "T"
     { files := filesC8, entry := "t.js" } () initRequestState []
     (.jsError "boom") []
     { moduleExportsCache := builtinModules, messageMap := [],
       nextId := 1, trace := [.merge "T", .run "t.js"] }
     rfl rfl rfl rfl rfl⟩

/-! ## Claim C10: failures do not roll back prior mutations -/

/-- C10: when a module's entry-file execution raises, the error propagates
with the failure-point state — nothing is rolled back: the module's own
messages had already been merged (the entry ran from the state whose
message map is the merged `mm2`) and every key merged so far is still
present in the final message map; every module memoized before the failure
(in particular each dependency loaded by the dependency loop) keeps its
memo entry with the same export value; and `executeModule` itself adds no
memo entry for the failing module (the returned state is exactly the
entry-execution's output state `st3`). -/
theorem failed_module_keeps_prior_mutations
    {fuel : Nat} {reg : Registry} {st : RequestState} {m : String}
    {md : ModuleDefinition} {u : Unit} {st1 : RequestState}
    {mm2 : List (String × String)} {e : Err}
    {cf : List (String × Value)} {st3 : RequestState}
    (hmemo : lookupA st.moduleExportsCache m = none)
    (hreg : lookupA reg m = some md)
    (hdeps : runDeps fuel reg st md.dependencies = (.ok u, st1))
    (hmsg : addMessages st1.messageMap md.messages = .ok mm2)
    (hfail : executeFile fuel reg md.files []
      { st1 with messageMap := mm2, trace := st1.trace ++ [.merge m] }
      md.entry = (.error e, cf, st3)) :
    executeModule (fuel + 1) reg st m = (.error e, st3) ∧
    (∀ k v, lookupA st1.moduleExportsCache k = some v →
      lookupA st3.moduleExportsCache k = some v) ∧
    (∀ k, (lookupA mm2 k).isSome = true →
      (lookupA st3.messageMap k).isSome = true) := by
  have hpres := (statePres fuel).2.2.1 _ _ _ _ _ _ hfail
  refine ⟨by simp [executeModule, hmemo, hreg, hdeps, hmsg, hfail],
    ?_, ?_⟩
  · intro k v hk
    exact hpres.1 k v hk
  · intro k hk
    exact hpres.2 k hk

/-- The registry of the C10 witness: module `F` depends on `D`, carries a
message catalog, and its entry throws. -/
def regC10 : Registry :=
  [("D", { files := [("d.js", .source (.plain .done))], entry := "d.js",
           messages := .record [("kd", "vd")] }),
   ("F", { files := [("f.js", .source (.plain (.throwJs "boom")))],
           entry := "f.js", messages := .record [("kf", "vf")],
           dependencies := ["D"] })]

/-- The state after `D` has been loaded by `F`'s dependency loop. -/
def st1C10 : RequestState :=
  { moduleExportsCache := [("vue", .builtin "vue"), ("D", .obj 0 none)],
    messageMap := [("kd", "vd")], nextId := 1,
    trace := [.merge "D", .run "d.js"] }

/-- The failure-point state of the C10 witness. -/
def st3C10 : RequestState :=
  { moduleExportsCache := [("vue", .builtin "vue"), ("D", .obj 0 none)],
    messageMap := [("kd", "vd"), ("kf", "vf")], nextId := 2,
    trace := [.merge "D", .run "d.js", .merge "F", .run "f.js"] }

/-- C10, witness: loading `F` fails with its entry's error, yet dependency
`D` keeps its memo entry and the merged message keys `kd`, `kf` are still
present. -/
theorem failed_module_keeps_prior_mutations_witness :
    executeModule 10 regC10 initRequestState "F"
      = (.error (.jsError "boom"), st3C10) ∧
    lookupA st3C10.moduleExportsCache "D" = some (.obj 0 none) ∧
    (lookupA st3C10.messageMap "kf").isSome = true := by
  have h := @failed_module_keeps_prior_mutations 9 regC10 initRequestState "F"
    { files := [("f.js", .source (.plain (.throwJs "boom")))],
      entry := "f.js", messages := .record [("kf", "vf")],
      dependencies := ["D"] }
    () st1C10 [("kd", "vd"), ("kf", "vf")] (.jsError "boom") [] st3C10
    rfl rfl rfl rfl rfl
  exact ⟨h.1, h.2.1 "D" (.obj 0 none) rfl, h.2.2 "kf" rfl⟩

/-! ## Claim C9: message formatting -/

/-- C9: `format` replaces each `$N` token (1-indexed, maximal digit run)
with `args[N-1]` when that argument is present and leaves every unmatched
token as literal text; in particular the spec's examples
`format "Hello $1" ["World"] = "Hello World"` and
`format "$1 $2" ["x"] = "x $2"` hold, multi-digit tokens index correctly,
and `$0` (whose `parseInt - 1` index is out of range) stays literal. -/
theorem format_spec :
    format "Hello $1" ["World"] = "Hello World" ∧
    format "$1 $2" ["x"] = "x $2" ∧
    format "$10 $2" ["a1", "a2", "a3", "a4", "a5", "a6", "a7", "a8", "a9", "a10"]
      = "a10 a2" ∧
    format "$0 $3" ["a", "b"] = "$0 $3" :=
  ⟨rfl, rfl, rfl, rfl⟩

end MwVue
